import Mathlib

/-!
# Verification of the order-statistics aggregator

A shallow embedding of `_order_statistics` from `biznisweb_mcp/server.py`
(the statistics aggregator: window resolution, cursor pagination with a
client-side date cutoff, status exclusion, and numeric accumulation),
together with theorems settling the specification's claims about it.

Modelling conventions:
* Python `datetime` values are minutes since an arbitrary epoch (`Int`);
  a calendar day `d` corresponds to the minute value `1440 * d`, and
  `timedelta(days=30)` is `43200` minutes.  `strptime('%Y-%m-%d')` of a
  date string yields midnight of that day, so a parsed purchase date is
  represented by its day number `d` (minute value `1440 * d`).  An order's
  `pur_date` field is modelled as the outcome of the source's
  split-at-`'T'`-and-parse step: `some d` for a parseable date string,
  `none` for the `ValueError`/`KeyError` path.
* Python dict fields that the source reads with `.get(key, default)` are
  modelled by `Fld`: the key may be `missing`, present but `null`
  (`None`, on which attribute access raises), or present with a value.
* Python `float` monetary arithmetic is modelled by exact rationals `ℚ`;
  `round(x, 2)` is round-half-to-even at two decimals.
* Each page fetch is a `Fetch` holding the result of the first attempt
  (`newer_from` filter) and of the fallback attempt without the date
  filter that the source runs when the first raises; `none` means the
  attempt raised.  The error dict's message text is abstracted away; its
  `period` payload (the resolved window) is kept.
-/

namespace BW

/-- A field of a Python dict as the source reads it with `.get`:
absent key, present-but-`None` value, or a proper value. -/
inductive Fld (α : Type) where
  | missing : Fld α
  | null : Fld α
  | val : α → Fld α
deriving DecidableEq

/-- The `value` entry of an order's `sum` dict: a number, a string-encoded
number, or `None` (which makes `total_revenue += order_value` raise). -/
inductive MoneyVal where
  | num : ℚ → MoneyVal
  | str : String → MoneyVal
  | null : MoneyVal
deriving DecidableEq

/-- The order's `status` dict (only its `name` entry is read). -/
structure StatusD where
  name : Option String
deriving DecidableEq

/-- The order's `sum` dict (only its `value` entry is read). -/
structure SumD where
  value : Option MoneyVal
deriving DecidableEq

/-- An order as consumed by `_order_statistics`: only the fields the
aggregator reads.  `pur_date` is the parsed purchase day (see module
doc); items are kept as an opaque list since only `len` is taken. -/
structure Order where
  statusF : Fld StatusD
  sumF : Fld SumD
  itemsF : Fld (List Unit)
  pur_date : Option Int
deriving DecidableEq

/-- One page of the `getOrderList` response: `data` plus the
`pageInfo.hasNextPage` flag (the cursor is implicit in the feed order). -/
structure Page where
  data : List Order
  hasNextPage : Bool
deriving DecidableEq

/-- One page-fetch interaction, covering the source's try/except at the
fetch site: the attempt with the `newer_from` filter, and the fallback
attempt without it that runs only when the first raises.  `none` = the
attempt raised an exception. -/
structure Fetch where
  firstAttempt : Option Page
  fallback : Option Page
deriving DecidableEq

/-- `excluded_statuses` exactly as listed in the source. -/
def excludedStatuses : List String :=
  [ "Storno"
  , "Platba online - platnos vyprala"
  , "Platba online - platba zamietnut"
  , "ak na hradu"
  , "GoPay - platebni metoda potvrzena" ]

/-- Resolve the date window exactly as the source does:
`to_date = now`, `from_date = to_date - 30 days`, each then overridden
independently by an explicit argument parsed at midnight of its day. -/
def resolveWindow (from_arg to_arg : Option Int) (now : Int) : Int × Int :=
  (match from_arg with
    | some d => 1440 * d
    | none => now - 43200,
   match to_arg with
    | some d => 1440 * d
    | none => now)

/-- How the per-order date filter (source lines 2002-2020) classifies one
order: buffered, triggers the descending-sort early stop, too new and
skipped, or date-parse failure and skipped. -/
inductive OClass where
  | keep : OClass
  | older : OClass
  | newer : OClass
  | parseFail : OClass
deriving DecidableEq

/-- The source's per-order branch: in-window first, then the strict
`order_date < from_date` early-stop test, else too new.  A parse failure
is caught and the order skipped. -/
def classify (w : Int × Int) (o : Order) : OClass :=
  match o.pur_date with
  | none => .parseFail
  | some d =>
    if 1440 * d ≥ w.1 ∧ 1440 * d ≤ w.2 then .keep
    else if 1440 * d < w.1 then .older
    else .newer

/-- Whether an order triggers the early stop of the scanning loop. -/
def stopsHere (w : Int × Int) (o : Order) : Bool :=
  match classify w o with
  | .older => true
  | _ => false

/-- The inner for-loop over one page's orders: returns the orders kept in
the window buffer and whether the early stop fired (`has_next = False`
plus `break`). -/
def filterOrders (w : Int × Int) : List Order → List Order × Bool
  | [] => ([], false)
  | o :: rest =>
    match classify w o with
    | .keep =>
      let r := filterOrders w rest
      (o :: r.1, r.2)
    | .older => ([], true)
    | .newer => filterOrders w rest
    | .parseFail => filterOrders w rest

/-- The effective result of one page fetch: the first attempt's page if it
succeeded, otherwise the fallback's; `none` when both raised (the
exception then propagates to the aggregation's outer handler). -/
def fetchPage (f : Fetch) : Option Page :=
  match f.firstAttempt with
  | some p => some p
  | none => f.fallback

/-- The pagination `while has_next` loop (source lines 1966-2034), folded
over the feed of fetch results.  Returns the in-window buffer, the final
`total_fetched`, and the fetches never consumed; `.error` models an
exception escaping to the outer handler.  Per iteration, mirroring the
source: filter the page, extend the buffer, add the page's raw size to
`total_fetched`, break on the `10000` safety ceiling, then stop if the
early-stop flag or the page's `hasNextPage = false` says so. -/
def fetchLoop (w : Int × Int) :
    List Fetch → List Order → Nat → Except Unit (List Order × Nat × List Fetch)
  | [], acc, tf => .ok (acc, tf, [])
  | f :: rest, acc, tf =>
    match fetchPage f with
    | none => .error ()
    | some p =>
      let fr := filterOrders w p.data
      let acc2 := acc ++ fr.1
      let tf2 := tf + p.data.length
      if 10000 < tf2 then .ok (acc2, tf2, rest)
      else if fr.2 then .ok (acc2, tf2, rest)
      else if p.hasNextPage then fetchLoop w rest acc2 tf2
      else .ok (acc2, tf2, rest)

/-- Value of a digit string, as Python's int/float parsing of the digits. -/
def digitsVal (cs : List Char) : ℚ :=
  ((cs.foldl (fun n c => 10 * n + (c.toNat - 48)) 0 : Nat) : ℚ)

/-- Python `float()` on a decimal numeral: optional sign, digits with an
optional single decimal point, at least one digit; anything else is a
`ValueError` (`none`).  Exponent/inf/nan forms are outside the shapes a
string-encoded monetary value takes and are mapped to `none`. -/
def parseDec (s : String) : Option ℚ :=
  let sgncs : ℚ × List Char :=
    match s.data with
    | '-' :: r => (-1, r)
    | '+' :: r => (1, r)
    | cs => (1, cs)
  match sgncs.2.splitOn '.' with
  | [ip] =>
    if ip ≠ [] ∧ ip.all Char.isDigit then some (sgncs.1 * digitsVal ip) else none
  | [ip, fp] =>
    if (ip ++ fp) ≠ [] ∧ (ip ++ fp).all Char.isDigit then
      some (sgncs.1 * (digitsVal ip + digitsVal fp / (10 : ℚ) ^ fp.length))
    else none
  | _ => none

/-- `status_name = order.get('status', {}).get('name', '')`: raises on a
`None` status (attribute access on `None`), defaults to `""` otherwise. -/
def statusGet (o : Order) : Except Unit String :=
  match o.statusF with
  | .null => .error ()
  | .missing => .ok ""
  | .val d => .ok (d.name.getD "")

/-- The second status read, `order.get('status', {}).get('name', 'Unknown')`,
whose default is `"Unknown"` rather than `""`. -/
def statusGet2 (o : Order) : Except Unit String :=
  match o.statusF with
  | .null => .error ()
  | .missing => .ok "Unknown"
  | .val d => .ok (d.name.getD "Unknown")

/-- `order.get('sum', {}).get('value', 0)`: raises on a `None` sum dict,
defaults to the number `0` when the dict or the key is missing. -/
def sumValueGet (o : Order) : Except Unit MoneyVal :=
  match o.sumF with
  | .null => .error ()
  | .missing => .ok (.num 0)
  | .val d => .ok (d.value.getD (.num 0))

/-- The value coercion: a string is converted with `float`, falling back
to `0` on failure; a `None` value raises (`TypeError`) at the
`total_revenue += order_value` addition. -/
def coerceOrderValue : MoneyVal → Except Unit ℚ
  | .num q => .ok q
  | .str s => .ok ((parseDec s).getD 0)
  | .null => .error ()

/-- `len(order.get('items', []))`: raises on a `None` items value,
defaults to `0` items when the key is missing. -/
def itemsLen (o : Order) : Except Unit Nat :=
  match o.itemsF with
  | .null => .error ()
  | .missing => .ok 0
  | .val l => .ok l.length

/-- One day's bucket of `daily_stats`. -/
structure DayStats where
  orders : Nat
  revenue : ℚ
  items : Nat
deriving DecidableEq

/-- The aggregation state of the statistics for-loop. -/
structure StatsAcc where
  total_revenue : ℚ
  total_items : Nat
  status_counts : List (String × Nat)
  daily_stats : List (Int × DayStats)
  valid_orders_count : Nat
deriving DecidableEq

/-- The zero-initialised accumulator. -/
def initAcc : StatsAcc := ⟨0, 0, [], [], 0⟩

/-- `status_counts[status] = status_counts.get(status, 0) + 1` on an
insertion-ordered association list (Python dict semantics). -/
def bump : List (String × Nat) → String → List (String × Nat)
  | [], k => [(k, 1)]
  | (k1, n) :: rest, k =>
    if k1 = k then (k1, n + 1) :: rest else (k1, n) :: bump rest k

/-- The `daily_stats` update: create the day's zero bucket if absent,
then add this order's contribution. -/
def dailyBump : List (Int × DayStats) → Int → ℚ → Nat → List (Int × DayStats)
  | [], d, v, it => [(d, ⟨1, v, it⟩)]
  | (d1, s) :: rest, d, v, it =>
    if d1 = d then (d1, ⟨s.orders + 1, s.revenue + v, s.items + it⟩) :: rest
    else (d1, s) :: dailyBump rest d v it

/-- The body of the statistics for-loop (source lines 2064-2108) for one
buffered order, with every exception point of the Python `try` block
modelled: a raise at any step keeps the updates already made and moves to
the next order (`except ... continue`). -/
def processOrder (acc : StatsAcc) (o : Order) : StatsAcc :=
  match statusGet o with
  | .error _ => acc
  | .ok status_name =>
    if status_name ∈ excludedStatuses then acc
    else
      match sumValueGet o with
      | .error _ => acc
      | .ok v =>
        match coerceOrderValue v with
        | .error _ => acc
        | .ok order_value =>
          let acc1 : StatsAcc :=
            { acc with
              total_revenue := acc.total_revenue + order_value
              valid_orders_count := acc.valid_orders_count + 1 }
          match itemsLen o with
          | .error _ => acc1
          | .ok items_count =>
            let acc2 : StatsAcc :=
              { acc1 with total_items := acc1.total_items + items_count }
            match statusGet2 o with
            | .error _ => acc2
            | .ok status =>
              let acc3 : StatsAcc :=
                { acc2 with status_counts := bump acc2.status_counts status }
              match o.pur_date with
              | none => acc3
              | some d =>
                { acc3 with
                  daily_stats := dailyBump acc3.daily_stats d order_value items_count }

/-- The statistics for-loop over the whole in-window buffer. -/
def processOrders (acc : StatsAcc) (l : List Order) : StatsAcc :=
  l.foldl processOrder acc

/-- Round-half-to-even of a rational, Python's `round` tie rule. -/
def roundHalfEven (q : ℚ) : Int :=
  let f := ⌊q⌋
  let r := q - (f : ℚ)
  if r < 1 / 2 then f
  else if 1 / 2 < r then f + 1
  else if f % 2 = 0 then f else f + 1

/-- Python `round(x, 2)`. -/
def round2 (q : ℚ) : ℚ := (roundHalfEven (q * 100) : ℚ) / 100

/-- The `summary` block of the returned report. -/
structure Summary where
  total_orders : Nat
  valid_orders : Nat
  excluded_orders : Int
  total_revenue : ℚ
  total_items : Nat
  average_order_value : ℚ
deriving DecidableEq

/-- The success payload of `_order_statistics`. -/
structure Report where
  period : Int × Int
  summary : Summary
  status_breakdown : List (String × Nat)
  daily_stats : List (Int × DayStats)
  excluded_statuses_used : List String
deriving DecidableEq

/-- Build the report from the in-window buffer (source lines 2112-2128):
`total_orders` is the buffer size, `excluded_orders` is the integer
difference `total - valid`, revenue is rounded to two decimals, and the
average divides the accumulated (unrounded) revenue by the valid count,
guarded against a zero divisor. -/
def buildReport (w : Int × Int) (all_orders : List Order) : Report :=
  let acc := processOrders initAcc all_orders
  { period := w
  , summary :=
    { total_orders := all_orders.length
    , valid_orders := acc.valid_orders_count
    , excluded_orders := (all_orders.length : Int) - (acc.valid_orders_count : Int)
    , total_revenue := round2 acc.total_revenue
    , total_items := acc.total_items
    , average_order_value :=
        if 0 < acc.valid_orders_count then
          round2 (acc.total_revenue / (acc.valid_orders_count : ℚ))
        else 0 }
  , status_breakdown := acc.status_counts
  , daily_stats := acc.daily_stats
  , excluded_statuses_used := excludedStatuses }

/-- The whole `_order_statistics` call on a given feed of fetch results:
resolve the window, run the pagination loop inside the outer `try`, and
either return the report or the structured error dict; the error carries
the resolved `period` (its message text is abstracted away). -/
def orderStatistics (from_arg to_arg : Option Int) (now : Int)
    (feed : List Fetch) : Except (Int × Int) Report :=
  match fetchLoop (resolveWindow from_arg to_arg now) feed [] 0 with
  | .error _ => .error (resolveWindow from_arg to_arg now)
  | .ok (buf, _, _) => .ok (buildReport (resolveWindow from_arg to_arg now) buf)

/-- Whether one order's processing reaches `valid_orders_count += 1`:
status readable and not excluded, sum dict readable, value coercible
(same prefix of branches as `processOrder`). -/
def countsValidB (o : Order) : Bool :=
  match statusGet o with
  | .error _ => false
  | .ok status_name =>
    if status_name ∈ excludedStatuses then false
    else
      match sumValueGet o with
      | .error _ => false
      | .ok v =>
        match coerceOrderValue v with
        | .error _ => false
        | .ok _ => true

/-- Whether an order is skipped by the exclusion test (status readable
and its name in the exclusion set). -/
def excludedStatusB (o : Order) : Bool :=
  match statusGet o with
  | .error _ => false
  | .ok status_name => status_name ∈ excludedStatuses

/-- Whether an order's processing raises before the valid-count
increment (unreadable status, unreadable sum dict, or a `None` value). -/
def raisesBeforeValidB (o : Order) : Bool :=
  match statusGet o with
  | .error _ => true
  | .ok status_name =>
    if status_name ∈ excludedStatuses then false
    else
      match sumValueGet o with
      | .error _ => true
      | .ok v =>
        match coerceOrderValue v with
        | .error _ => true
        | .ok _ => false

/-- Whether an order's processing raises anywhere in the per-order `try`
block (and is hence cut short by the `except ... continue`). -/
def raisesB (o : Order) : Bool :=
  match statusGet o with
  | .error _ => true
  | .ok status_name =>
    if status_name ∈ excludedStatuses then false
    else
      match sumValueGet o with
      | .error _ => true
      | .ok v =>
        match coerceOrderValue v with
        | .error _ => true
        | .ok _ =>
          match itemsLen o with
          | .error _ => true
          | .ok _ =>
            match statusGet2 o with
            | .error _ => true
            | .ok _ => o.pur_date.isNone

/-- Whether an order's processing reaches the `status_counts` update. -/
def reachesStatusB (o : Order) : Bool :=
  countsValidB o &&
    (match itemsLen o with | .error _ => false | .ok _ => true) &&
    (match statusGet2 o with | .error _ => false | .ok _ => true)

/-- The key under which an order lands in `status_counts` (meaningful
when `reachesStatusB` holds). -/
def statusKey (o : Order) : String :=
  match statusGet2 o with
  | .error _ => "Unknown"
  | .ok s => s

/-- Sum of the per-status counts of a breakdown map. -/
def sumCounts (m : List (String × Nat)) : Nat := (m.map Prod.snd).sum

/-- Keys of a breakdown map. -/
def keysOf (m : List (String × Nat)) : List String := m.map Prod.fst

end BW

namespace BW

/-! ## Per-order lemmas about the statistics fold -/

/-- An order whose status name is in the exclusion set leaves the
accumulator untouched (`continue` before any accumulation). -/
theorem processOrder_of_excluded (acc : StatsAcc) (o : Order)
    (h : excludedStatusB o = true) : processOrder acc o = acc := by
  unfold processOrder
  unfold excludedStatusB at h
  cases hs : statusGet o with
  | error e => rfl
  | ok sn =>
    rw [hs] at h
    simp only [decide_eq_true_eq] at h
    simp [h]

/-- An order whose processing raises before the valid-count increment
leaves the accumulator untouched. -/
theorem processOrder_of_raisesBefore (acc : StatsAcc) (o : Order)
    (h : raisesBeforeValidB o = true) : processOrder acc o = acc := by
  unfold processOrder
  unfold raisesBeforeValidB at h
  cases hs : statusGet o with
  | error e => rfl
  | ok sn =>
    rw [hs] at h
    by_cases hm : sn ∈ excludedStatuses
    · simp [hm]
    · simp only [if_neg hm] at h ⊢
      cases hv : sumValueGet o with
      | error e => rfl
      | ok v =>
        rw [hv] at h
        simp only at h
        cases hc : coerceOrderValue v with
        | error e => simp [hc]
        | ok q => rw [hc] at h; simp at h

/-- The valid-order count grows by one exactly on orders that reach the
`valid_orders_count += 1` line. -/
theorem processOrder_valid (acc : StatsAcc) (o : Order) :
    (processOrder acc o).valid_orders_count
      = acc.valid_orders_count + (if countsValidB o then 1 else 0) := by
  unfold processOrder countsValidB
  cases hs : statusGet o with
  | error e => simp
  | ok sn =>
    by_cases hm : sn ∈ excludedStatuses
    · simp [hm]
    · simp only [if_neg hm]
      cases hv : sumValueGet o with
      | error e => simp
      | ok v =>
        cases hc : coerceOrderValue v with
        | error e => simp [hc]
        | ok q =>
          cases hi : itemsLen o with
          | error e => simp [hc, hi]
          | ok n =>
            cases h2 : statusGet2 o with
            | error e => simp [hc, hi, h2]
            | ok s2 => cases hd : o.pur_date <;> simp [hc, hi, h2, hd]

/-- The status-count map is bumped at `statusKey o` exactly on orders
that reach the `status_counts` update, else untouched. -/
theorem processOrder_statusCounts (acc : StatsAcc) (o : Order) :
    (processOrder acc o).status_counts
      = if reachesStatusB o then bump acc.status_counts (statusKey o)
        else acc.status_counts := by
  unfold processOrder reachesStatusB countsValidB statusKey
  cases hs : statusGet o with
  | error e => simp
  | ok sn =>
    by_cases hm : sn ∈ excludedStatuses
    · simp [hm]
    · simp only [if_neg hm]
      cases hv : sumValueGet o with
      | error e => simp
      | ok v =>
        cases hc : coerceOrderValue v with
        | error e => simp [hc]
        | ok q =>
          cases hi : itemsLen o with
          | error e => simp [hc, hi]
          | ok n =>
            cases h2 : statusGet2 o with
            | error e => simp [hc, hi, h2]
            | ok s2 => cases hd : o.pur_date <;> simp [hc, hi, h2, hd]

/-- Being counted valid is exactly not being excluded-status and not
raising before the valid-count increment. -/
theorem countsValidB_eq_not_or (o : Order) :
    countsValidB o = !(excludedStatusB o || raisesBeforeValidB o) := by
  unfold countsValidB excludedStatusB raisesBeforeValidB
  cases hs : statusGet o with
  | error e => simp
  | ok sn =>
    by_cases hm : sn ∈ excludedStatuses
    · simp [hm]
    · simp only [if_neg hm]
      cases hv : sumValueGet o with
      | error e => simp [hm]
      | ok v =>
        cases hc : coerceOrderValue v with
        | error e => simp [hm, hc]
        | ok q => simp [hm, hc]

/-- The key an order contributes to `status_counts` is never in the
exclusion set: a named status was already tested against the set, and the
defaulted key `"Unknown"` is not a member. -/
theorem statusKey_not_excluded (o : Order) (h : reachesStatusB o = true) :
    statusKey o ∉ excludedStatuses := by
  rcases o with ⟨st, sm, it, pd⟩
  cases st with
  | null => simp [reachesStatusB, countsValidB, statusGet] at h
  | missing =>
    simp only [statusKey, statusGet2]
    decide
  | val d =>
    cases hn : d.name with
    | none =>
      simp only [statusKey, statusGet2, hn, Option.getD_none]
      decide
    | some s =>
      simp only [reachesStatusB, countsValidB, statusGet, hn, Bool.and_eq_true] at h
      simp only [statusKey, statusGet2, hn, Option.getD_some]
      rcases h with ⟨⟨h1, -⟩, -⟩
      by_cases hm : s ∈ excludedStatuses
      · simp [hm] at h1
      · exact hm

end BW

namespace BW

/-! ## Map and fold lemmas -/

/-- Bumping a status adds exactly one to the total of the counts. -/
theorem sumCounts_bump (m : List (String × Nat)) (k : String) :
    sumCounts (bump m k) = sumCounts m + 1 := by
  induction m with
  | nil => rfl
  | cons p rest ih =>
    obtain ⟨k1, n⟩ := p
    by_cases hk : k1 = k
    · simp [bump, hk, sumCounts]
      omega
    · simp only [bump, if_neg hk]
      simp [sumCounts] at ih ⊢
      omega

/-- Bumping can only introduce the bumped key. -/
theorem keysOf_bump_subset (m : List (String × Nat)) (k : String) :
    keysOf (bump m k) ⊆ k :: keysOf m := by
  induction m with
  | nil => simp [bump, keysOf]
  | cons p rest ih =>
    obtain ⟨k1, n⟩ := p
    intro a ha
    by_cases hk : k1 = k
    · simp [bump, hk, keysOf] at ha ⊢
      tauto
    · simp only [bump, if_neg hk, keysOf, List.map_cons, List.mem_cons] at ha
      rcases ha with rfl | ha
      · simp [keysOf]
      · have h2 := ih ha
        simp only [List.mem_cons, keysOf, List.map_cons] at h2 ⊢
        tauto

/-- The fold splits over list append (`foldl` associativity). -/
theorem processOrders_append (acc : StatsAcc) (l1 l2 : List Order) :
    processOrders acc (l1 ++ l2) = processOrders (processOrders acc l1) l2 := by
  simp [processOrders, List.foldl_append]

/-- The final valid-order count is the number of buffered orders that
reach the valid-count increment. -/
theorem processOrders_valid (acc : StatsAcc) (l : List Order) :
    (processOrders acc l).valid_orders_count
      = acc.valid_orders_count + l.countP countsValidB := by
  induction l generalizing acc with
  | nil => simp [processOrders]
  | cons o rest ih =>
    have h1 : processOrders acc (o :: rest) = processOrders (processOrder acc o) rest := rfl
    rw [h1, ih, processOrder_valid, List.countP_cons]
    by_cases hc : countsValidB o <;> (simp [hc]; try omega)

/-- The total of the status counts is the number of buffered orders that
reach the `status_counts` update. -/
theorem processOrders_sumCounts (acc : StatsAcc) (l : List Order) :
    sumCounts (processOrders acc l).status_counts
      = sumCounts acc.status_counts + l.countP reachesStatusB := by
  induction l generalizing acc with
  | nil => simp [processOrders]
  | cons o rest ih =>
    have h1 : processOrders acc (o :: rest) = processOrders (processOrder acc o) rest := rfl
    rw [h1, ih, List.countP_cons]
    by_cases hr : reachesStatusB o
    · simp [processOrder_statusCounts, hr, sumCounts_bump]
      omega
    · simp [processOrder_statusCounts, hr]

/-- Every key of the final status-count map comes from the initial map or
from a non-excluded order's key. -/
theorem processOrders_keys (acc : StatsAcc) (l : List Order) (k : String)
    (h : k ∈ keysOf (processOrders acc l).status_counts) :
    k ∈ keysOf acc.status_counts ∨ k ∉ excludedStatuses := by
  induction l generalizing acc with
  | nil => exact Or.inl h
  | cons o rest ih =>
    have h1 : processOrders acc (o :: rest) = processOrders (processOrder acc o) rest := rfl
    rw [h1] at h
    rcases ih (processOrder acc o) h with hk | hk
    · rw [processOrder_statusCounts] at hk
      by_cases hr : reachesStatusB o
      · rw [if_pos hr] at hk
        rcases List.mem_cons.mp (keysOf_bump_subset acc.status_counts (statusKey o) hk) with rfl | hk2
        · exact Or.inr (statusKey_not_excluded o hr)
        · exact Or.inl hk2
      · rw [if_neg hr] at hk
        exact Or.inl hk
    · exact Or.inr hk

/-- Orders that reach the status-count update were counted valid. -/
theorem reaches_le_valid (l : List Order) :
    l.countP reachesStatusB ≤ l.countP countsValidB := by
  induction l with
  | nil => simp
  | cons o rest ih =>
    simp only [List.countP_cons]
    have h : reachesStatusB o = true → countsValidB o = true := by
      intro hh
      unfold reachesStatusB at hh
      simp only [Bool.and_eq_true] at hh
      exact hh.1.1
    by_cases hr : reachesStatusB o
    · simp [hr, h hr]; omega
    · by_cases hv : countsValidB o <;> simp [hr, hv] <;> omega

end BW

namespace BW

/-! ## Pagination-loop lemmas -/

/-- If no order before `o` triggers the early stop and `o` does, the page
scan keeps exactly the in-window orders before `o`, drops `o` and
everything after it, and reports the stop flag. -/
theorem filterOrders_stopped (w : Int × Int) (pre post : List Order) (o : Order)
    (hpre : ∀ o1 ∈ pre, stopsHere w o1 = false) (ho : stopsHere w o = true) :
    filterOrders w (pre ++ o :: post) = ((filterOrders w pre).1, true) := by
  induction pre with
  | nil =>
    simp only [List.nil_append]
    unfold stopsHere at ho
    unfold filterOrders
    cases hc : classify w o with
    | older => rfl
    | keep => rw [hc] at ho; simp at ho
    | newer => rw [hc] at ho; simp at ho
    | parseFail => rw [hc] at ho; simp at ho
  | cons x rest ih =>
    have hx := hpre x (by simp)
    have hrest : ∀ o1 ∈ rest, stopsHere w o1 = false := fun o1 h1 => hpre o1 (by simp [h1])
    unfold stopsHere at hx
    simp only [List.cons_append]
    unfold filterOrders
    cases hcx : classify w x with
    | keep => simp [ih hrest]
    | older => simp [hcx] at hx
    | newer => exact ih hrest
    | parseFail => exact ih hrest

end BW

namespace BW

/-- Claim C1: in the pagination loop, on a page whose scan reaches a
first order with a parsed purchase date strictly before the window start
(`stopsHere`), the result is exactly the buffer extended by the in-window
orders strictly before that order — the stopping order and everything
after it on the page are not buffered, `total_fetched` still grows by the
page's raw size, and no fetch after this page is consumed, whatever the
page's `hasNextPage` flag or the remaining feed. -/
theorem claim1_early_stop_halts_pagination (w : Int × Int)
    (pre post : List Order) (o : Order) (hn : Bool) (fb : Option Page)
    (rest : List Fetch) (acc : List Order) (tf : Nat)
    (hpre : ∀ o1 ∈ pre, stopsHere w o1 = false) (ho : stopsHere w o = true) :
    fetchLoop w (⟨some ⟨pre ++ o :: post, hn⟩, fb⟩ :: rest) acc tf
      = .ok (acc ++ (filterOrders w pre).1, tf + (pre ++ o :: post).length, rest) := by
  unfold fetchLoop fetchPage
  simp only
  rw [filterOrders_stopped w pre post o hpre ho]
  split
  · rfl
  · rfl

/-- Claim C4 (divergence witness): on a feed of pages with empty `data`
and `hasNextPage = true`, the loop consumes the entire feed, however
long, with `total_fetched` stuck at `0` — the `10000` safety ceiling
(the code's guard "to prevent infinite loops") never fires, so an
endless such feed is never stopped. -/
theorem claim4_empty_pages_never_hit_ceiling (w : Int × Int) (n : Nat) :
    fetchLoop w (List.replicate n ⟨some ⟨[], true⟩, none⟩) [] 0 = .ok ([], 0, []) := by
  induction n with
  | zero => rfl
  | succ m ih =>
    rw [List.replicate_succ]
    unfold fetchLoop fetchPage
    simpa using ih

end BW

namespace BW

/-- Claim C2: every report returned by the aggregator satisfies
`valid_orders + excluded_orders = total_orders`, with `total_orders` the
size of the in-window buffer produced by the pagination loop. -/
theorem claim2_valid_plus_excluded (a b : Option Int) (now : Int)
    (feed : List Fetch) (r : Report)
    (h : orderStatistics a b now feed = .ok r) :
    (r.summary.valid_orders : Int) + r.summary.excluded_orders
        = (r.summary.total_orders : Int)
      ∧ ∃ buf tf rest, fetchLoop (resolveWindow a b now) feed [] 0 = .ok (buf, tf, rest)
          ∧ r.summary.total_orders = buf.length := by
  unfold orderStatistics at h
  cases hfl : fetchLoop (resolveWindow a b now) feed [] 0 with
  | error e => rw [hfl] at h; exact absurd h (by simp)
  | ok t =>
    obtain ⟨buf, tf, rest⟩ := t
    rw [hfl] at h
    simp only [Except.ok.injEq] at h
    subst h
    refine ⟨?_, buf, tf, rest, rfl, rfl⟩
    unfold buildReport
    simp only
    omega

/-- Claim C3: an in-window order whose status display name is in the
exclusion set contributes nothing to the revenue, item, status or daily
aggregates — the report over a buffer containing it equals, in all those
fields, the report over the buffer without it — while `total_orders`
still counts it, whatever its monetary value. -/
theorem claim3_excluded_status_contributes_nothing (w : Int × Int)
    (l1 l2 : List Order) (o : Order) (s : String)
    (hs : statusGet o = .ok s) (hmem : s ∈ excludedStatuses) :
    (buildReport w (l1 ++ o :: l2)).summary.total_revenue
        = (buildReport w (l1 ++ l2)).summary.total_revenue
      ∧ (buildReport w (l1 ++ o :: l2)).summary.total_items
        = (buildReport w (l1 ++ l2)).summary.total_items
      ∧ (buildReport w (l1 ++ o :: l2)).daily_stats
        = (buildReport w (l1 ++ l2)).daily_stats
      ∧ (buildReport w (l1 ++ o :: l2)).status_breakdown
        = (buildReport w (l1 ++ l2)).status_breakdown
      ∧ (buildReport w (l1 ++ o :: l2)).summary.total_orders
        = (buildReport w (l1 ++ l2)).summary.total_orders + 1 := by
  have hexcl : excludedStatusB o = true := by
    unfold excludedStatusB
    rw [hs]
    simpa using hmem
  have hproc : processOrders initAcc (l1 ++ o :: l2) = processOrders initAcc (l1 ++ l2) := by
    rw [processOrders_append, processOrders_append]
    have h1 : processOrders (processOrders initAcc l1) (o :: l2)
        = processOrders (processOrder (processOrders initAcc l1) o) l2 := rfl
    rw [h1, processOrder_of_excluded _ o hexcl]
  unfold buildReport
  rw [hproc]
  simp [List.length_append]
  omega

/-- Claim C6: the reported average order value is the accumulated
(unrounded) revenue divided by the valid-order count, rounded to two
decimals, when the valid count is positive, and `0` otherwise — the
division is guarded, never a fault. -/
theorem claim6_average_order_value (w : Int × Int) (l : List Order) :
    (buildReport w l).summary.average_order_value
      = if 0 < (buildReport w l).summary.valid_orders then
          round2 ((processOrders initAcc l).total_revenue
            / ((buildReport w l).summary.valid_orders : ℚ))
        else 0 := rfl

/-- Claim C7: a monetary value supplied as a string-encoded numeric
yields exactly the same report as the same value supplied as a number —
hence identical `total_revenue`, daily buckets and average — and a
non-coercible string is coerced to `0` rather than failing. -/
theorem claim7_string_number_equivalence (w : Int × Int)
    (l1 l2 : List Order) (st : Fld StatusD) (it : Fld (List Unit))
    (pd : Option Int) (s sbad : String) (q : ℚ)
    (hq : parseDec s = some q) (hbad : parseDec sbad = none) :
    buildReport w (l1 ++ (⟨st, .val ⟨some (.str s)⟩, it, pd⟩ : Order) :: l2)
        = buildReport w (l1 ++ (⟨st, .val ⟨some (.num q)⟩, it, pd⟩ : Order) :: l2)
      ∧ coerceOrderValue (.str sbad) = .ok 0 := by
  constructor
  · have key : ∀ acc : StatsAcc,
        processOrder acc (⟨st, .val ⟨some (.str s)⟩, it, pd⟩ : Order)
          = processOrder acc (⟨st, .val ⟨some (.num q)⟩, it, pd⟩ : Order) := by
      intro acc
      unfold processOrder
      simp [statusGet, statusGet2, sumValueGet, itemsLen, coerceOrderValue, hq]
    have hproc :
        processOrders initAcc (l1 ++ (⟨st, .val ⟨some (.str s)⟩, it, pd⟩ : Order) :: l2)
          = processOrders initAcc (l1 ++ (⟨st, .val ⟨some (.num q)⟩, it, pd⟩ : Order) :: l2) := by
      rw [processOrders_append, processOrders_append]
      have h1 : ∀ o : Order, processOrders (processOrders initAcc l1) (o :: l2)
          = processOrders (processOrder (processOrders initAcc l1) o) l2 := fun o => rfl
      rw [h1, h1, key]
    unfold buildReport
    rw [hproc]
    simp [List.length_append]
  · simp [coerceOrderValue, hbad]

end BW

namespace BW

/-- Claim C5 (amended): when both window ends are supplied explicitly
(parsed at midnight), the per-order filter is inclusive at both ends: an
order whose parsed day equals the start day or the end day is kept.  For
the default window the end day (the day of `now`) is still kept, but an
order dated the start day is classified `older` — dropped, and stopping
the scan — whenever the start instant `now - 30 days` is not exactly
midnight. -/
theorem claim5_window_inclusivity (a b now d : Int) (o : Order)
    (hd : o.pur_date = some d) :
    (a ≤ b → d = a ∨ d = b →
        classify (resolveWindow (some a) (some b) now) o = .keep)
      ∧ (d = now / 1440 → classify (resolveWindow none none now) o = .keep)
      ∧ (d = (now - 43200) / 1440 → 1440 * d < now - 43200 →
          classify (resolveWindow none none now) o = .older) := by
  refine ⟨?_, ?_, ?_⟩
  · intro hab hdab
    have hcond : 1440 * d ≥ 1440 * a ∧ 1440 * d ≤ 1440 * b := by
      rcases hdab with rfl | rfl <;> constructor <;> omega
    unfold classify
    rw [hd]
    simp only [resolveWindow]
    rw [if_pos hcond]
  · intro hdn
    have hcond : 1440 * d ≥ now - 43200 ∧ 1440 * d ≤ now := by
      subst hdn
      constructor <;> omega
    unfold classify
    rw [hd]
    simp only [resolveWindow]
    rw [if_pos hcond]
  · intro hdd hlt
    have hnc : ¬(1440 * d ≥ now - 43200 ∧ 1440 * d ≤ now) := by omega
    unfold classify
    rw [hd]
    simp only [resolveWindow]
    rw [if_neg hnc, if_pos hlt]

/-- Claim C8 (amended): a page fetch whose initial attempt and fallback
attempt both fail aborts the whole aggregation with the structured error
carrying the resolved window and no statistics; and every error the
aggregator returns carries exactly the resolved window. -/
theorem claim8_double_failure_aborts (a b : Option Int) (now : Int)
    (feed rest : List Fetch) :
    orderStatistics a b now (⟨none, none⟩ :: rest) = .error (resolveWindow a b now)
      ∧ (∀ e, orderStatistics a b now feed = .error e →
          e = resolveWindow a b now) := by
  constructor
  · rfl
  · intro e he
    unfold orderStatistics at he
    cases hfl : fetchLoop (resolveWindow a b now) feed [] 0 with
    | error u =>
      rw [hfl] at he
      simp only [Except.error.injEq] at he
      exact he.symm
    | ok t =>
      obtain ⟨buf, tf2, rest2⟩ := t
      rw [hfl] at he
      exact absurd he (by simp)

/-- Valid orders and their complement partition the buffer. -/
theorem countP_valid_add_complement (l : List Order) :
    l.countP countsValidB
      + l.countP (fun o => excludedStatusB o || raisesBeforeValidB o)
      = l.length := by
  induction l with
  | nil => rfl
  | cons o rest ih =>
    simp only [List.countP_cons, List.length_cons]
    by_cases hx : (excludedStatusB o || raisesBeforeValidB o) = true
    · have hc : countsValidB o = false := by
        rw [countsValidB_eq_not_or, hx]
        rfl
      simp [hc, hx]
      omega
    · have hx2 : (excludedStatusB o || raisesBeforeValidB o) = false := by
        cases h2 : (excludedStatusB o || raisesBeforeValidB o) with
        | true => exact absurd h2 hx
        | false => rfl
      have hc : countsValidB o = true := by
        rw [countsValidB_eq_not_or, hx2]
        rfl
      simp [hc, hx2]
      omega

/-- Claim C9 (amended): `excluded_orders` equals the number of buffered
orders that are either of excluded status or whose processing raises
before the valid-count increment; an order raising after that increment
(for example on a `None` items list) still counts as valid and is not in
`excluded_orders`. -/
theorem claim9_excluded_count_characterisation (w : Int × Int)
    (buffer : List Order) :
    (buildReport w buffer).summary.excluded_orders
      = (buffer.countP (fun o => excludedStatusB o || raisesBeforeValidB o) : Int) := by
  have hv := processOrders_valid initAcc buffer
  rw [show initAcc.valid_orders_count = 0 from rfl] at hv
  have hsum := countP_valid_add_complement buffer
  unfold buildReport
  simp only
  omega

/-- Claim C10 (amended): no key of `status_breakdown` is in the exclusion
set, and the sum of its counts is at most `valid_orders` (an order that
raises between the valid-count increment and the status-count update is
valid but never reaches the breakdown, so equality can fail). -/
theorem claim10_breakdown_keys_and_total (w : Int × Int) (buffer : List Order) :
    (∀ k, k ∈ keysOf (buildReport w buffer).status_breakdown →
        k ∉ excludedStatuses)
      ∧ sumCounts (buildReport w buffer).status_breakdown
        ≤ (buildReport w buffer).summary.valid_orders := by
  constructor
  · intro k hk
    have hk2 : k ∈ keysOf (processOrders initAcc buffer).status_counts := hk
    rcases processOrders_keys initAcc buffer k hk2 with h | h
    · simp [initAcc, keysOf] at h
    · exact h
  · have h1 := processOrders_sumCounts initAcc buffer
    have h2 := processOrders_valid initAcc buffer
    have h3 := reaches_le_valid buffer
    rw [show sumCounts initAcc.status_counts = 0 from rfl] at h1
    rw [show initAcc.valid_orders_count = 0 from rfl] at h2
    have hb : sumCounts (buildReport w buffer).status_breakdown
        = sumCounts (processOrders initAcc buffer).status_counts := rfl
    have hv : (buildReport w buffer).summary.valid_orders
        = (processOrders initAcc buffer).valid_orders_count := rfl
    rw [hb, hv]
    omega

end BW

namespace BW

/-- Claim C5 (counterexample): with `now` at noon of day 30 the default
window start `now - 30 days` falls inside calendar day 0, yet an order
dated day 0 — whose truncated purchase date equals the window-start day —
is not buffered: the report over a feed containing exactly that order has
`total_orders = 0`. -/
theorem claim5_counterexample :
    resolveWindow none none 43920 = (720, 43920)
      ∧ ((1440 * 0 : Int) ≤ 720 ∧ (720 : Int) < 1440 * (0 + 1))
      ∧ (orderStatistics none none 43920
          [⟨some ⟨[(⟨.missing, .val ⟨some (.num 10)⟩, .val [], some 0⟩ : Order)],
            false⟩, none⟩]).toOption.map
          (fun r => r.summary.total_orders) = some 0 :=
  ⟨by decide, by decide, by decide⟩

/-- Claim C8 (counterexample): a feed whose only page fetch fails on the
first attempt but succeeds on the fallback without the date filter does
not abort: the aggregation returns a report with the fallback page's
order buffered, refuting abort-with-no-retry. -/
theorem claim8_counterexample :
    (orderStatistics (some 0) (some 10) 0
      [⟨none, some ⟨[(⟨.missing, .missing, .val [], some 3⟩ : Order)], false⟩⟩]).toOption.map
        (fun r => r.summary.total_orders) = some 1 := by decide

/-- Claim C9 (counterexample): an in-window order with a non-excluded
status and a `None` items list raises during processing and is cut
short, yet the report counts it valid: `valid_orders = 1`,
`excluded_orders = 0` — the errored order does not land in
`excluded_orders`. -/
theorem claim9_counterexample :
    (orderStatistics (some 0) (some 10) 0
      [⟨some ⟨[(⟨.val ⟨some "Odoslana"⟩, .val ⟨some (.num 10)⟩, .null, some 3⟩ : Order)],
        false⟩, none⟩]).toOption.map
        (fun r => (r.summary.valid_orders, r.summary.excluded_orders)) = some (1, 0)
      ∧ raisesB (⟨.val ⟨some "Odoslana"⟩, .val ⟨some (.num 10)⟩, .null, some 3⟩ : Order) = true
      ∧ excludedStatusB (⟨.val ⟨some "Odoslana"⟩, .val ⟨some (.num 10)⟩, .null, some 3⟩ : Order)
        = false :=
  ⟨by decide, by decide, by decide⟩

/-- Claim C10 (counterexample): an in-window order with a non-excluded
status and a `None` items list is counted valid but raises before the
status-count update, so the breakdown totals `0` while `valid_orders`
is `1` — the sum of the breakdown counts does not equal `valid_orders`. -/
theorem claim10_counterexample :
    (orderStatistics (some 0) (some 10) 0
      [⟨some ⟨[(⟨.val ⟨some "Expedovana"⟩, .val ⟨some (.num 5)⟩, .null, some 4⟩ : Order)],
        false⟩, none⟩]).toOption.map
        (fun r => (sumCounts r.status_breakdown, r.summary.valid_orders)) = some (0, 1) := by
  decide

/-- Claim C1 (witness): the spec's synthetic feed shape — four descending
orders with the third on the window-start day and the fourth older —
stops after the third order, buffers exactly three, counts the page's
raw size of four, and leaves the second fetch unconsumed. -/
theorem claim1_witness :
    fetchLoop (87840, 144000)
      [⟨some ⟨[(⟨.missing, .missing, .missing, some 70⟩ : Order),
               ⟨.missing, .missing, .missing, some 65⟩,
               ⟨.missing, .missing, .missing, some 61⟩,
               ⟨.missing, .missing, .missing, some 51⟩], true⟩, none⟩,
       ⟨none, none⟩] [] 0
      = .ok ([(⟨.missing, .missing, .missing, some 70⟩ : Order),
              ⟨.missing, .missing, .missing, some 65⟩,
              ⟨.missing, .missing, .missing, some 61⟩], 4, [⟨none, none⟩]) := by
  exact claim1_early_stop_halts_pagination (87840, 144000)
    [⟨.missing, .missing, .missing, some 70⟩,
     ⟨.missing, .missing, .missing, some 65⟩,
     ⟨.missing, .missing, .missing, some 61⟩] []
    ⟨.missing, .missing, .missing, some 51⟩ true none [⟨none, none⟩] [] 0
    (by decide) (by decide)

/-- Claim C2 (witness): the invariant instantiated on a concrete run
over the empty feed. -/
theorem claim2_witness :
    ((buildReport (resolveWindow (some 0) (some 1) 0) []).summary.valid_orders : Int)
        + (buildReport (resolveWindow (some 0) (some 1) 0) []).summary.excluded_orders
        = ((buildReport (resolveWindow (some 0) (some 1) 0) []).summary.total_orders : Int)
      ∧ ∃ buf tf rest,
          fetchLoop (resolveWindow (some 0) (some 1) 0) [] [] 0 = .ok (buf, tf, rest)
          ∧ (buildReport (resolveWindow (some 0) (some 1) 0) []).summary.total_orders
            = buf.length :=
  claim2_valid_plus_excluded (some 0) (some 1) 0 [] _ rfl

/-- Claim C3 (witness): a concrete `Storno` order of value 999
contributes nothing to the aggregates but counts in `total_orders`. -/
theorem claim3_witness :
    (buildReport (0, 14400)
        ([] ++ (⟨.val ⟨some "Storno"⟩, .val ⟨some (.num 999)⟩, .val [], some 2⟩ : Order) :: [])).summary.total_revenue
      = (buildReport (0, 14400) ([] ++ [])).summary.total_revenue
    ∧ (buildReport (0, 14400)
        ([] ++ (⟨.val ⟨some "Storno"⟩, .val ⟨some (.num 999)⟩, .val [], some 2⟩ : Order) :: [])).summary.total_items
      = (buildReport (0, 14400) ([] ++ [])).summary.total_items
    ∧ (buildReport (0, 14400)
        ([] ++ (⟨.val ⟨some "Storno"⟩, .val ⟨some (.num 999)⟩, .val [], some 2⟩ : Order) :: [])).daily_stats
      = (buildReport (0, 14400) ([] ++ [])).daily_stats
    ∧ (buildReport (0, 14400)
        ([] ++ (⟨.val ⟨some "Storno"⟩, .val ⟨some (.num 999)⟩, .val [], some 2⟩ : Order) :: [])).status_breakdown
      = (buildReport (0, 14400) ([] ++ [])).status_breakdown
    ∧ (buildReport (0, 14400)
        ([] ++ (⟨.val ⟨some "Storno"⟩, .val ⟨some (.num 999)⟩, .val [], some 2⟩ : Order) :: [])).summary.total_orders
      = (buildReport (0, 14400) ([] ++ [])).summary.total_orders + 1 :=
  claim3_excluded_status_contributes_nothing (0, 14400) [] []
    ⟨.val ⟨some "Storno"⟩, .val ⟨some (.num 999)⟩, .val [], some 2⟩ "Storno" rfl (by decide)

/-- Claim C5 (witness): an explicit window over days 5 to 7 keeps an
order dated exactly the start day. -/
theorem claim5_witness :
    classify (resolveWindow (some 5) (some 7) 0)
      ⟨.missing, .missing, .missing, some 5⟩ = .keep :=
  (claim5_window_inclusivity 5 7 0 5 ⟨.missing, .missing, .missing, some 5⟩ rfl).1
    (by decide) (Or.inl rfl)

/-- Claim C7 (witness): the string monetary value `"19.99"` yields the
same report as its numeric parse, and `"abc"` coerces to zero. -/
theorem claim7_witness :
    buildReport (0, 14400)
        ([] ++ (⟨.missing, .val ⟨some (.str "19.99")⟩, .missing, some 3⟩ : Order) :: [])
      = buildReport (0, 14400)
        ([] ++ (⟨.missing, .val ⟨some (.num ((parseDec "19.99").getD 0))⟩, .missing, some 3⟩ : Order) :: [])
    ∧ coerceOrderValue (.str "abc") = .ok 0 :=
  claim7_string_number_equivalence (0, 14400) [] [] .missing .missing (some 3)
    "19.99" "abc" ((parseDec "19.99").getD 0) rfl (by decide)

/-- Claim C8 (witness): the double-failure abort and the echoed window on
a concrete call. -/
theorem claim8_witness :
    orderStatistics none none 0 [⟨none, none⟩] = .error (resolveWindow none none 0)
      ∧ ((0 - 43200 : Int), (0 : Int)) = resolveWindow none none 0 :=
  ⟨(claim8_double_failure_aborts none none 0 [] []).1,
   (claim8_double_failure_aborts none none 0 [⟨none, none⟩] []).2 (0 - 43200, 0) rfl⟩

/-- Claim C10 (witness): the key bound and the count bound on a concrete
one-order buffer. -/
theorem claim10_witness :
    ("Nova" ∉ excludedStatuses)
      ∧ sumCounts (buildReport (0, 14400)
            [⟨.val ⟨some "Nova"⟩, .val ⟨some (.num 3)⟩, .val [], some 2⟩]).status_breakdown
          ≤ (buildReport (0, 14400)
            [⟨.val ⟨some "Nova"⟩, .val ⟨some (.num 3)⟩, .val [], some 2⟩]).summary.valid_orders :=
  ⟨(claim10_breakdown_keys_and_total (0, 14400)
      [⟨.val ⟨some "Nova"⟩, .val ⟨some (.num 3)⟩, .val [], some 2⟩]).1 "Nova" (by decide),
   (claim10_breakdown_keys_and_total (0, 14400)
      [⟨.val ⟨some "Nova"⟩, .val ⟨some (.num 3)⟩, .val [], some 2⟩]).2⟩

end BW
